import Mathlib

/-!
Shallow embedding of `src/pdf_formatter.py` (class `ExamReformatter`).

Pages of the input document are modelled by their extracted texts
(`List String`, one entry per page, in source order).  The PDF/image
collaborators are opaque: rasterization and image drawing are modelled by
success oracles (`rasterOk`, `drawOk : Nat → Bool`, indexed by source page
index), and appending a rendered sheet to the output writer by an oracle
`addOk : Sheet → Bool`.  A sheet is the list of drawing operations the code
performs on its canvas (cell borders, labels, page images, title), with the
geometry of the operations abstracted away (no claim concerns coordinates).
`Option` models Python exception propagation: `none` is an uncaught
exception aborting the computation.
-/

set_option maxHeartbeats 1600000

namespace PdfFormatter

/-- ASCII part of the regex character class for whitespace, as used by
`re.search(r'TEZA\s*(\d+)', text, re.IGNORECASE)` in `parse_pdf`. -/
def isWs (c : Char) : Bool :=
  c = ' ' || c = '\t' || c = '\n' || c = '\r' || c = '\x0b' || c = '\x0c'

/-- Numeric value of the matched digit group, as Python `int(...)`. -/
def digitsVal (ds : List Char) : Nat :=
  ds.foldl (fun n c => 10 * n + (c.toNat - '0'.toNat)) 0

/-- Try to match `TEZA\s*(\d+)` (IGNORECASE) at the start of the character
list: four letters t,e,z,a in any case, then greedily skipped whitespace,
then a maximal non-empty digit run whose value is returned. -/
def matchTezaAt : List Char → Option Nat
  | c1 :: c2 :: c3 :: c4 :: rest =>
    if c1.toLower = 't' && c2.toLower = 'e' && c3.toLower = 'z' && c4.toLower = 'a' then
      let ds := (rest.dropWhile isWs).takeWhile Char.isDigit
      if ds.isEmpty then none else some (digitsVal ds)
    else none
  | _ => none

/-- `re.search` semantics: try every start position, leftmost first. -/
def findMarkerAux : List Char → Option Nat
  | [] => none
  | c :: rest =>
    match matchTezaAt (c :: rest) with
    | some n => some n
    | none => findMarkerAux rest

/-- The marker test of `parse_pdf` (line 35 of the source). -/
def findMarker (text : String) : Option Nat :=
  findMarkerAux text.data

/-- Lookup in the insertion-ordered dict `self.exams`. -/
def lookupGroup : List (Nat × List Nat) → Nat → Option (List Nat)
  | [], _ => none
  | (k, v) :: rest, n => if k = n then some v else lookupGroup rest n

/-- `self.exams[n].append(p)`; a missing key leaves the dict unchanged
(in the source this situation cannot arise: the key is always present). -/
def appendPage : List (Nat × List Nat) → Nat → Nat → List (Nat × List Nat)
  | [], _, _ => []
  | (k, v) :: rest, n, p =>
    if k = n then (k, v ++ [p]) :: rest else (k, v) :: appendPage rest n p

/-- State of the classification loop in `parse_pdf`: the dict `self.exams`
(insertion-ordered) and the mutable local `current_exam`. -/
structure ParseState where
  exams : List (Nat × List Nat)
  currentExam : Option Nat
deriving DecidableEq

/-- One iteration of the page loop in `parse_pdf` (lines 29-45). -/
def parseStep (s : ParseState) (pageNum : Nat) (text : String) : ParseState :=
  match findMarker text with
  | some n =>
    let exams1 := if (lookupGroup s.exams n).isSome then s.exams else s.exams ++ [(n, [])]
    { exams := appendPage exams1 n pageNum, currentExam := some n }
  | none =>
    match s.currentExam with
    | some g => { exams := appendPage s.exams g pageNum, currentExam := some g }
    | none => s

/-- The whole classification loop, as a fold over the page texts. -/
def parseRun (texts : List String) : ParseState :=
  texts.enum.foldl (fun s pt => parseStep s pt.1 pt.2) ⟨[], none⟩

/-- `parse_pdf`: the resulting `self.exams` dict. -/
def parse_pdf (texts : List String) : List (Nat × List Nat) :=
  (parseRun texts).exams

/-- `sorted(self.exams.keys())` (line 158). -/
def sortedIds (exams : List (Nat × List Nat)) : List Nat :=
  List.insertionSort (fun a b => a ≤ b) (exams.map Prod.fst)

/-- The `while len(batch) < 6: batch.append(None)` padding (lines 170-171). -/
def padTo6 (l : List (Option Nat)) : List (Option Nat) :=
  l ++ List.replicate (6 - l.length) none

/-- The batching loop `for i in range(0, len(exam_numbers), 6)` together with
the padding: consecutive windows of six ids, the last window padded with
`None` slots.  Written with structural recursion (a full window of six is
consumed at a time); `chunkBatches_cons` below recovers the take/drop view
of the loop. -/
def chunkBatches : List Nat → List (List (Option Nat))
  | [] => []
  | x1 :: x2 :: x3 :: x4 :: x5 :: x6 :: rest =>
    [some x1, some x2, some x3, some x4, some x5, some x6] :: chunkBatches rest
  | l => [padTo6 (l.map some)]

/-- The back-side slot reordering (lines 186-189): each row of three slots
reversed in place.  In the source this is only ever applied to a list of
exactly six slots; other shapes are returned unchanged. -/
def back_order {α : Type} : List α → List α
  | [b0, b1, b2, b3, b4, b5] => [b2, b1, b0, b5, b4, b3]
  | l => l

/-- A drawing operation performed on a sheet's canvas by `create_grid_page`.
Geometry (cell rectangles, font sizes, colours) is abstracted away: no claim
concerns coordinates, so a cell is identified by its slot index. -/
inductive DrawOp where
  | rect (slot : Nat)
  | label (slot : Nat) (text : String)
  | image (slot : Nat) (pageIdx : Nat)
  | title (text : String)
deriving DecidableEq

/-- The cell label of line 95:
`f"E{exam_num}-P{page_idx - self.exams[exam_num][0] + 1}"`.
The source indexes `self.exams[exam_num][0]` directly (the key is always
present with a non-empty list at every call site); missing data defaults
to `0` here. -/
def labelText (exams : List (Nat × List Nat)) (examNum pageIdx : Nat) : String :=
  "E" ++ toString examNum ++ "-P" ++
    toString ((pageIdx : Int) - ((((lookupGroup exams examNum).getD []).headD 0 : Nat) : Int) + 1)

/-- The body of the cell loop of `create_grid_page` (lines 75-126) for one
cell: an empty cell is skipped; a filled cell gets a border rectangle and a
label, then its source page is rasterized and its image drawn.  A
rasterization or drawing failure is an uncaught exception (the `try` of
line 110 has only a `finally` that removes the temp file): the whole sheet
rendering aborts, modelled by `none`. -/
def renderCell (exams : List (Nat × List Nat)) (rasterOk drawOk : Nat → Bool)
    (slot : Nat) (cell : Option Nat × Option Nat) : Option (List DrawOp) :=
  match cell with
  | (some examNum, some pageIdx) =>
    if rasterOk pageIdx then
      if drawOk pageIdx then
        some [DrawOp.rect slot, DrawOp.label slot (labelText exams examNum pageIdx),
              DrawOp.image slot pageIdx]
      else none
    else none
  | _ => some []

/-- The cell loop of `create_grid_page`, over `enumerate(zip(...))`. -/
def renderCells (exams : List (Nat × List Nat)) (rasterOk drawOk : Nat → Bool) :
    Nat → List (Option Nat × Option Nat) → Option (List DrawOp)
  | _, [] => some []
  | i, c :: cs =>
    match renderCell exams rasterOk drawOk i c with
    | none => none
    | some ops =>
      match renderCells exams rasterOk drawOk (i + 1) cs with
      | none => none
      | some more => some (ops ++ more)

/-- A cell survives the `if exam_num is None or page_idx is None: continue`
test of line 76: the source's `has_content` flag becomes `True` exactly for
such cells. -/
def cellFilled (c : Option Nat × Option Nat) : Bool :=
  c.1.isSome && c.2.isSome

/-- `create_grid_page` (lines 57-132): draws the optional title, then every
cell; returns the drawing operations together with the `has_content` flag. -/
def create_grid_page (exams : List (Nat × List Nat)) (rasterOk drawOk : Nat → Bool)
    (examNums pageIndices : List (Option Nat)) (title : String) :
    Option (List DrawOp × Bool) :=
  let cells := examNums.zip pageIndices
  let titleOps := if title = "" then [] else [DrawOp.title title]
  match renderCells exams rasterOk drawOk 0 cells with
  | none => none
  | some ops => some (titleOps ++ ops, cells.any cellFilled)

/-- Front-side slot resolution (lines 177-181):
`self.exams[exam_num][0]` if `exam_num` is truthy and a key of the dict. -/
def frontIndex (exams : List (Nat × List Nat)) : Option Nat → Option Nat
  | none => none
  | some n =>
    if n ≠ 0 then
      match lookupGroup exams n with
      | some (p :: _) => some p
      | _ => none
    else none

/-- Back-side slot resolution (lines 191-195): the group's second page if
`exam_num` is truthy, a key, and its list has more than one page. -/
def backIndex (exams : List (Nat × List Nat)) : Option Nat → Option Nat
  | none => none
  | some n =>
    if n ≠ 0 then
      match lookupGroup exams n with
      | some (_ :: p :: _) => some p
      | _ => none
    else none

/-- Supplemental slot resolution (lines 233-237): the group's third page if
`exam_num` is truthy and its list has at least three pages. -/
def thirdIndex (exams : List (Nat × List Nat)) : Option Nat → Option Nat
  | none => none
  | some n =>
    if n ≠ 0 then
      match lookupGroup exams n with
      | some (_ :: _ :: p :: _) => some p
      | _ => none
    else none

/-- A page of the output document: a rendered grid sheet (its canvas
operations) or the blank page of `create_blank_page`. -/
inductive Sheet where
  | grid (ops : List DrawOp)
  | blank
deriving DecidableEq

/-- Python's repr of the list `[b for b in batch if b is not None]`, used in
the supplemental sheet title (line 239). -/
def pyIntListRepr (l : List Nat) : String :=
  "[" ++ String.intercalate ", " (l.map toString) ++ "]"

/-- One primary batch (lines 175-197): render the front sheet from each
group's first page, reorder the slots with `back_order`, render the back
sheet from second pages, and pair the front with either the back sheet
(when `has_second_pages`) or a blank page.  Rendering failures abort. -/
def primaryBatchSheets (exams : List (Nat × List Nat)) (rasterOk drawOk : Nat → Bool)
    (batch : List (Option Nat)) (batchNum : Nat) : Option (List Sheet) :=
  match create_grid_page exams rasterOk drawOk batch (batch.map (frontIndex exams))
      ("Batch " ++ toString batchNum ++ " - First Pages") with
  | none => none
  | some (fops, _) =>
    let bo := back_order batch
    match create_grid_page exams rasterOk drawOk bo (bo.map (backIndex exams))
        ("Batch " ++ toString batchNum ++ " - Second Pages") with
    | none => none
    | some (bops, hasSecond) =>
      some (Sheet.grid fops :: (if hasSecond then [Sheet.grid bops] else [Sheet.blank]))

/-- The primary batch loop (lines 165-215).  The `try`/`except` of
lines 200-215 catches append failures: the sheets of a batch are appended
one by one until the first failing append (`takeWhile`), the rest of that
batch's sheets are skipped, and the loop continues with the next batch. -/
def processPrimary (exams : List (Nat × List Nat)) (rasterOk drawOk : Nat → Bool)
    (addOk : Sheet → Bool) :
    List (List (Option Nat)) → Nat → List Sheet → Option (List Sheet)
  | [], _, w => some w
  | b :: bs, k, w =>
    match primaryBatchSheets exams rasterOk drawOk b k with
    | none => none
    | some sheets =>
      processPrimary exams rasterOk drawOk addOk bs (k + 1) (w ++ sheets.takeWhile addOk)

/-- One supplemental batch (lines 231-251): render the third-page sheet
(direct slot order), then pair it with an unconditional blank page. -/
def suppBatchSheets (exams : List (Nat × List Nat)) (rasterOk drawOk : Nat → Bool)
    (batch : List (Option Nat)) : Option (List Sheet) :=
  match create_grid_page exams rasterOk drawOk batch (batch.map (thirdIndex exams))
      ("Third Pages - Exams " ++ pyIntListRepr (batch.filterMap id)) with
  | none => none
  | some (tops, _) => some [Sheet.grid tops, Sheet.blank]

/-- The supplemental batch loop (lines 224-251), with the same per-batch
`try`/`except` around the appends. -/
def processSupplemental (exams : List (Nat × List Nat)) (rasterOk drawOk : Nat → Bool)
    (addOk : Sheet → Bool) :
    List (List (Option Nat)) → List Sheet → Option (List Sheet)
  | [], w => some w
  | b :: bs, w =>
    match suppBatchSheets exams rasterOk drawOk b with
    | none => none
    | some sheets =>
      processSupplemental exams rasterOk drawOk addOk bs (w ++ sheets.takeWhile addOk)

/-- `third_page_exams` (line 219): the sorted ids restricted to groups with
at least three pages. -/
def thirdPageExams (exams : List (Nat × List Nat)) : List Nat :=
  (sortedIds exams).filter (fun n => 3 ≤ ((lookupGroup exams n).getD []).length)

/-- `reformat_pdf` after classification (lines 157-255): primary batches,
then supplemental batches, then the output file is written with whatever
the writer holds.  `none` is an uncaught exception: the run halts without
writing a file. -/
def reformat_core (exams : List (Nat × List Nat)) (rasterOk drawOk : Nat → Bool)
    (addOk : Sheet → Bool) : Option (List Sheet) :=
  match processPrimary exams rasterOk drawOk addOk (chunkBatches (sortedIds exams)) 1 [] with
  | none => none
  | some w => processSupplemental exams rasterOk drawOk addOk (chunkBatches (thirdPageExams exams)) w

/-- The whole program: classification followed by reformatting. -/
def reformat_pdf (texts : List String) (rasterOk drawOk : Nat → Bool)
    (addOk : Sheet → Bool) : Option (List Sheet) :=
  reformat_core (parse_pdf texts) rasterOk drawOk addOk

/-- Source page indices displayed by a drawing operation. -/
def opImages : DrawOp → List Nat
  | DrawOp.image _ p => [p]
  | _ => []

/-- Source page indices displayed on a sheet. -/
def sheetImages : Sheet → List Nat
  | Sheet.grid ops => (ops.map opImages).flatten
  | Sheet.blank => []

/-- Source page indices displayed anywhere in the output document. -/
def outputImages (out : List Sheet) : List Nat :=
  (out.map sheetImages).flatten

/-- Modelled from the spec (§4.5), for comparison with `labelText`: the
1-based rank of a page within its group's page-index sequence. -/
def rankInGroup (pages : List Nat) (pageIdx : Nat) : Nat :=
  pages.indexOf pageIdx + 1

/-- Modelled from the spec (§4.5), for comparison with `labelText`: the
label `"E{groupId}-P{1-based rank within group}"` the spec describes. -/
def specLabelText (exams : List (Nat × List Nat)) (examNum pageIdx : Nat) : String :=
  "E" ++ toString examNum ++ "-P" ++
    toString (rankInGroup ((lookupGroup exams examNum).getD []) pageIdx)

/-! ## Helper lemmas -/

/-- The take/drop view of one iteration of the batching loop. -/
theorem chunkBatches_cons (x : Nat) (xs : List Nat) :
    chunkBatches (x :: xs) = padTo6 ((x :: xs.take 5).map some) :: chunkBatches (xs.drop 5) := by
  match xs with
  | [] => rfl
  | [a] => rfl
  | [a, b] => rfl
  | [a, b, c] => rfl
  | [a, b, c, d] => rfl
  | a :: b :: c :: d :: e :: rest => rfl

/-- Induction following the batching loop: a window of up to six ids at a
time. -/
theorem chunkBatches_rec (P : List Nat → Prop) (h0 : P [])
    (hstep : ∀ x xs, P (xs.drop 5) → P (x :: xs)) (l : List Nat) : P l := by
  have key : ∀ n (m : List Nat), m.length ≤ n → P m := by
    intro n
    induction n with
    | zero =>
      intro m hm
      have hm0 : m = [] := List.length_eq_zero.mp (Nat.le_zero.mp hm)
      exact hm0 ▸ h0
    | succ n ih =>
      intro m hm
      match m with
      | [] => exact h0
      | x :: xs =>
        refine hstep x xs (ih (xs.drop 5) ?_)
        simp only [List.length_drop]
        simp only [List.length_cons] at hm
        omega
  exact key l.length l le_rfl

theorem padTo6_length (l : List (Option Nat)) (h : l.length ≤ 6) : (padTo6 l).length = 6 := by
  simp only [padTo6, List.length_append, List.length_replicate]
  omega

theorem padTo6_filterMap (l : List Nat) : (padTo6 (l.map some)).filterMap id = l := by
  simp [padTo6]

theorem chunkBatches_length (l : List Nat) :
    (chunkBatches l).length = (l.length + 5) / 6 := by
  induction l using chunkBatches_rec with
  | h0 => simp [chunkBatches]
  | hstep x xs ih =>
    rw [chunkBatches_cons]
    simp only [List.length_cons, List.length_drop] at ih ⊢
    omega

theorem chunkBatches_batch_length (l : List Nat) :
    ∀ b ∈ chunkBatches l, b.length = 6 := by
  induction l using chunkBatches_rec with
  | h0 => simp [chunkBatches]
  | hstep x xs ih =>
    rw [chunkBatches_cons]
    intro b hb
    rw [List.mem_cons] at hb
    rcases hb with hb | hb
    · subst hb
      apply padTo6_length
      simp only [List.length_map, List.length_cons, List.length_take]
      omega
    · exact ih b hb

theorem chunkBatches_flatten (l : List Nat) :
    ((chunkBatches l).map (fun b => b.filterMap id)).flatten = l := by
  induction l using chunkBatches_rec with
  | h0 => simp [chunkBatches]
  | hstep x xs ih =>
    rw [chunkBatches_cons, List.map_cons, List.flatten_cons, padTo6_filterMap, ih]
    rw [List.cons_append, List.take_append_drop]

theorem lookupGroup_appendPage_self (exams : List (Nat × List Nat)) (n p : Nat) :
    lookupGroup (appendPage exams n p) n = (lookupGroup exams n).map (fun v => v ++ [p]) := by
  induction exams with
  | nil => rfl
  | cons kv rest ih =>
    obtain ⟨k, v⟩ := kv
    by_cases h : k = n
    · subst h
      simp [appendPage, lookupGroup]
    · simp [appendPage, lookupGroup, h, ih]

theorem lookupGroup_appendPage_ne (exams : List (Nat × List Nat)) (n m p : Nat)
    (h : m ≠ n) :
    lookupGroup (appendPage exams n p) m = lookupGroup exams m := by
  induction exams with
  | nil => rfl
  | cons kv rest ih =>
    obtain ⟨k, v⟩ := kv
    by_cases hk : k = n
    · subst hk
      have : k ≠ m := fun hh => h hh.symm
      simp [appendPage, lookupGroup, this]
    · by_cases hm : k = m
      · subst hm
        simp [appendPage, lookupGroup, hk]
      · simp [appendPage, lookupGroup, hk, hm, ih]

theorem lookupGroup_concat_self (exams : List (Nat × List Nat)) (n : Nat) (v : List Nat)
    (h : lookupGroup exams n = none) :
    lookupGroup (exams ++ [(n, v)]) n = some v := by
  induction exams with
  | nil => simp [lookupGroup]
  | cons kv rest ih =>
    obtain ⟨k, w⟩ := kv
    by_cases hk : k = n
    · simp [lookupGroup, hk] at h
    · simp only [lookupGroup, hk, if_false, List.cons_append] at h ⊢
      exact ih h

theorem lookupGroup_concat_ne (exams : List (Nat × List Nat)) (n m : Nat) (v : List Nat)
    (h : m ≠ n) :
    lookupGroup (exams ++ [(n, v)]) m = lookupGroup exams m := by
  induction exams with
  | nil =>
    have : n ≠ m := fun hh => h hh.symm
    simp [lookupGroup, this]
  | cons kv rest ih =>
    obtain ⟨k, w⟩ := kv
    by_cases hm : k = m
    · simp [lookupGroup, hm]
    · simp only [List.cons_append, lookupGroup, hm, if_false]
      exact ih

/-- The dict entry of a freshly matched id: the existing list if the id is
already a key, the fresh empty list otherwise. -/
theorem lookupGroup_exams1 (exams : List (Nat × List Nat)) (n : Nat) :
    lookupGroup (if (lookupGroup exams n).isSome then exams else exams ++ [(n, [])]) n
      = some ((lookupGroup exams n).getD []) := by
  cases h : lookupGroup exams n with
  | none => simp [h, lookupGroup_concat_self exams n [] h]
  | some v => simp [h]

/-- A page-loop iteration with no marker and no active group is the
identity. -/
theorem parseRun_all_none (ts : List String) (k : Nat)
    (h : ∀ t ∈ ts, findMarker t = none) :
    List.foldl (fun s pt => parseStep s pt.1 pt.2) ⟨[], none⟩ (List.enumFrom k ts)
      = (⟨[], none⟩ : ParseState) := by
  induction ts generalizing k with
  | nil => rfl
  | cons t ts ih =>
    have ht : findMarker t = none := h t (List.mem_cons_self t ts)
    simp only [List.enumFrom, List.foldl_cons]
    have hstep : parseStep ⟨[], none⟩ k t = ⟨[], none⟩ := by
      simp [parseStep, ht]
    rw [hstep]
    exact ih (k + 1) (fun u hu => h u (List.mem_cons_of_mem t hu))

theorem isDigit_not_ws (c : Char) (h : c.isDigit = true) : isWs c = false := by
  by_contra hne
  have hw : isWs c = true := by
    cases hws : isWs c
    · exact absurd hws hne
    · rfl
  simp only [isWs, Bool.or_eq_true, decide_eq_true_eq] at hw
  rcases hw with ((((h1 | h1) | h1) | h1) | h1) | h1 <;> subst h1 <;>
    exact absurd h (by decide)

theorem dropWhile_ws (ws : List Char) (d : Char) (rest : List Char)
    (hws : ∀ c ∈ ws, isWs c = true) (hd : isWs d = false) :
    (ws ++ d :: rest).dropWhile isWs = d :: rest := by
  induction ws with
  | nil => simp [List.dropWhile_cons, hd]
  | cons c cs ih =>
    have hc := hws c (List.mem_cons_self c cs)
    simp only [List.cons_append, List.dropWhile_cons, hc, if_true]
    exact ih (fun u hu => hws u (List.mem_cons_of_mem c hu))

theorem takeWhile_digits (ds rest : List Char)
    (hds : ∀ c ∈ ds, c.isDigit = true)
    (hrest : ∀ c, rest.head? = some c → c.isDigit = false) :
    (ds ++ rest).takeWhile Char.isDigit = ds := by
  induction ds with
  | nil =>
    cases rest with
    | nil => rfl
    | cons r rs => simp [List.takeWhile_cons, hrest r rfl]
  | cons c cs ih =>
    have hc := hds c (List.mem_cons_self c cs)
    simp only [List.cons_append, List.takeWhile_cons, hc, if_true, List.cons.injEq, true_and]
    exact ih (fun u hu => hds u (List.mem_cons_of_mem c hu))

/-- A successful match of the pattern at the head of a character list. -/
theorem matchTezaAt_match (c1 c2 c3 c4 : Char) (ws ds rest : List Char)
    (h1 : c1.toLower = 't') (h2 : c2.toLower = 'e') (h3 : c3.toLower = 'z')
    (h4 : c4.toLower = 'a')
    (hws : ∀ c ∈ ws, isWs c = true) (hne : ds ≠ [])
    (hdigits : ∀ c ∈ ds, c.isDigit = true)
    (hrest : ∀ c, rest.head? = some c → c.isDigit = false) :
    matchTezaAt (c1 :: c2 :: c3 :: c4 :: (ws ++ (ds ++ rest))) = some (digitsVal ds) := by
  match ds, hne with
  | d :: ds2, _ =>
    have hd : Char.isDigit d = true := hdigits d (List.mem_cons_self d ds2)
    have hdrop : (ws ++ (d :: ds2 ++ rest)).dropWhile isWs = d :: (ds2 ++ rest) := by
      rw [List.cons_append]
      exact dropWhile_ws ws d (ds2 ++ rest) hws (isDigit_not_ws d hd)
    have htake : ((d :: ds2) ++ rest).takeWhile Char.isDigit = d :: ds2 :=
      takeWhile_digits (d :: ds2) rest hdigits hrest
    have hunfold : matchTezaAt (c1 :: c2 :: c3 :: c4 :: (ws ++ (d :: ds2 ++ rest)))
        = (if (((ws ++ (d :: ds2 ++ rest)).dropWhile isWs).takeWhile Char.isDigit).isEmpty
           then none
           else some (digitsVal (((ws ++ (d :: ds2 ++ rest)).dropWhile isWs).takeWhile
             Char.isDigit))) := by
      simp [matchTezaAt, h1, h2, h3, h4]
    rw [List.cons_append] at htake
    rw [hunfold, hdrop, htake]
    rfl

/-- `re.search` succeeds whenever the pattern matches at any position. -/
theorem findMarkerAux_isSome (l : List Char) (i : Nat)
    (h : (matchTezaAt (l.drop i)).isSome = true) : (findMarkerAux l).isSome = true := by
  induction l generalizing i with
  | nil =>
    rw [List.drop_nil] at h
    exact absurd h (by decide)
  | cons c rest ih =>
    cases hm : matchTezaAt (c :: rest) with
    | some n => simp [findMarkerAux, hm]
    | none =>
      cases i with
      | zero =>
        rw [List.drop_zero, hm] at h
        exact absurd h (by decide)
      | succ j =>
        rw [List.drop_succ_cons] at h
        simp only [findMarkerAux, hm]
        exact ih j h

theorem indexOf_range' (a k i : Nat) (hi : i < k) :
    List.indexOf (a + i) (List.range' a k) = i := by
  induction k generalizing a i with
  | zero => omega
  | succ k ih =>
    rw [List.range'_succ a k 1]
    cases i with
    | zero => simp
    | succ j =>
      have hne : a ≠ a + (j + 1) := by omega
      rw [List.indexOf_cons_ne _ hne]
      rw [show a + (j + 1) = (a + 1) + j by omega]
      rw [ih (a + 1) j (by omega)]

theorem headD_range' (a k : Nat) (hk : 0 < k) : (List.range' a k).headD 0 = a := by
  match k, hk with
  | k + 1, _ => rw [List.range'_succ a k 1]; rfl

theorem mem_back_order {α : Type} (l : List α) (x : α) : x ∈ back_order l ↔ x ∈ l := by
  rcases l with _ | ⟨a, _ | ⟨b, _ | ⟨c, _ | ⟨d, _ | ⟨e, _ | ⟨f, rest⟩⟩⟩⟩⟩⟩
  · simp [back_order]
  · simp [back_order]
  · simp [back_order]
  · simp [back_order]
  · simp [back_order]
  · simp [back_order]
  · rcases rest with _ | ⟨g, rest'⟩
    · simp only [back_order, List.mem_cons]
      tauto
    · simp [back_order]

theorem renderCells_allOk (exams : List (Nat × List Nat)) (i : Nat)
    (cells : List (Option Nat × Option Nat)) :
    ∃ ops, renderCells exams (fun _ => true) (fun _ => true) i cells = some ops := by
  induction cells generalizing i with
  | nil => exact ⟨[], rfl⟩
  | cons c cs ih =>
    obtain ⟨ops, hops⟩ := ih (i + 1)
    match c with
    | (some e, some p) =>
      refine ⟨[DrawOp.rect i, DrawOp.label i (labelText exams e p), DrawOp.image i p]
        ++ ops, ?_⟩
      simp [renderCells, renderCell, hops]
    | (none, q) =>
      refine ⟨ops, ?_⟩
      simp [renderCells, renderCell, hops]
    | (some e, none) =>
      refine ⟨ops, ?_⟩
      simp [renderCells, renderCell, hops]

theorem create_grid_page_allOk (exams : List (Nat × List Nat))
    (nums idxs : List (Option Nat)) (t : String) :
    ∃ ops, create_grid_page exams (fun _ => true) (fun _ => true) nums idxs t
      = some (ops, (nums.zip idxs).any cellFilled) := by
  obtain ⟨ops, hops⟩ := renderCells_allOk exams 0 (nums.zip idxs)
  refine ⟨(if t = "" then [] else [DrawOp.title t]) ++ ops, ?_⟩
  simp [create_grid_page, hops]

theorem backIndex_isSome_iff (exams : List (Nat × List Nat)) (n : Nat) :
    (backIndex exams (some n)).isSome = true
      ↔ (n ≠ 0 ∧ ∃ l, lookupGroup exams n = some l ∧ 2 ≤ l.length) := by
  by_cases h0 : n = 0
  · subst h0
    simp [backIndex]
  · cases hl : lookupGroup exams n with
    | none => simp [backIndex, h0, hl]
    | some l =>
      match l with
      | [] => simp [backIndex, h0, hl]
      | [p] => simp [backIndex, h0, hl]
      | p0 :: p1 :: rest => simp [backIndex, h0, hl]

theorem any_cellFilled_zip_map
    (f : Option Nat → Option Nat) (hf : f none = none) (l : List (Option Nat)) :
    (l.zip (l.map f)).any cellFilled = true
      ↔ ∃ n, (some n) ∈ l ∧ (f (some n)).isSome = true := by
  induction l with
  | nil => simp
  | cons e rest ih =>
    simp only [List.map_cons, List.zip_cons_cons, List.any_cons, Bool.or_eq_true, ih]
    cases e with
    | none =>
      simp only [cellFilled, hf, Option.isSome_none, Bool.and_false, List.mem_cons]
      constructor
      · rintro (h | ⟨n, hn, hs⟩)
        · exact absurd h (by decide)
        · exact ⟨n, Or.inr hn, hs⟩
      · rintro ⟨n, hn | hn, hs⟩
        · exact absurd hn (by simp)
        · exact Or.inr ⟨n, hn, hs⟩
    | some n =>
      simp only [cellFilled, Option.isSome_some, Bool.true_and, List.mem_cons]
      constructor
      · rintro (h | ⟨m, hm, hs⟩)
        · exact ⟨n, Or.inl rfl, h⟩
        · exact ⟨m, Or.inr hm, hs⟩
      · rintro ⟨m, hm | hm, hs⟩
        · rw [Option.some.inj hm] at hs
          exact Or.inl hs
        · exact Or.inr ⟨m, hm, hs⟩

theorem renderCell_fail (exams : List (Nat × List Nat)) (R D : Nat → Bool) (i e p : Nat)
    (h : R p = false ∨ D p = false) :
    renderCell exams R D i (some e, some p) = none := by
  rcases h with h | h
  · simp [renderCell, h]
  · cases hR : R p <;> simp [renderCell, hR, h]

theorem renderCells_fail (exams : List (Nat × List Nat)) (R D : Nat → Bool) (i : Nat)
    (cells : List (Option Nat × Option Nat)) (e p : Nat)
    (hmem : (some e, some p) ∈ cells) (h : R p = false ∨ D p = false) :
    renderCells exams R D i cells = none := by
  induction cells generalizing i with
  | nil => cases hmem
  | cons c cs ih =>
    rw [List.mem_cons] at hmem
    rcases hmem with hec | hmem
    · rw [← hec]
      simp [renderCells, renderCell_fail exams R D i e p h]
    · cases hc : renderCell exams R D i c with
      | none => simp [renderCells, hc]
      | some ops => simp [renderCells, hc, ih (i + 1) hmem]

theorem create_grid_page_fail (exams : List (Nat × List Nat)) (R D : Nat → Bool)
    (nums idxs : List (Option Nat)) (t : String) (e p : Nat)
    (hmem : (some e, some p) ∈ nums.zip idxs) (h : R p = false ∨ D p = false) :
    create_grid_page exams R D nums idxs t = none := by
  simp [create_grid_page, renderCells_fail exams R D 0 (nums.zip idxs) e p hmem h]

theorem primaryBatchSheets_allOk (exams : List (Nat × List Nat))
    (b : List (Option Nat)) (k : Nat) :
    ∃ sheets, primaryBatchSheets exams (fun _ => true) (fun _ => true) b k = some sheets := by
  obtain ⟨fops, hf⟩ := create_grid_page_allOk exams b (b.map (frontIndex exams))
    ("Batch " ++ toString k ++ " - First Pages")
  obtain ⟨bops, hb⟩ := create_grid_page_allOk exams (back_order b)
    ((back_order b).map (backIndex exams)) ("Batch " ++ toString k ++ " - Second Pages")
  exact ⟨Sheet.grid fops ::
      (if ((back_order b).zip ((back_order b).map (backIndex exams))).any cellFilled
       then [Sheet.grid bops] else [Sheet.blank]),
    by simp [primaryBatchSheets, hf, hb]⟩

theorem suppBatchSheets_allOk (exams : List (Nat × List Nat)) (b : List (Option Nat)) :
    ∃ tops, suppBatchSheets exams (fun _ => true) (fun _ => true) b
      = some [Sheet.grid tops, Sheet.blank] := by
  obtain ⟨tops, ht⟩ := create_grid_page_allOk exams b (b.map (thirdIndex exams))
    ("Third Pages - Exams " ++ pyIntListRepr (b.filterMap id))
  exact ⟨tops, by simp [suppBatchSheets, ht]⟩

theorem processPrimary_allOk_isSome (exams : List (Nat × List Nat)) (A : Sheet → Bool)
    (bs : List (List (Option Nat))) : ∀ (k : Nat) (w : List Sheet),
    ∃ out, processPrimary exams (fun _ => true) (fun _ => true) A bs k w = some out := by
  induction bs with
  | nil => exact fun k w => ⟨w, rfl⟩
  | cons b bs ih =>
    intro k w
    obtain ⟨sheets, hs⟩ := primaryBatchSheets_allOk exams b k
    obtain ⟨out, hout⟩ := ih (k + 1) (w ++ sheets.takeWhile A)
    refine ⟨out, ?_⟩
    simp only [processPrimary, hs]
    exact hout

theorem processSupplemental_allOk_isSome (exams : List (Nat × List Nat)) (A : Sheet → Bool)
    (bs : List (List (Option Nat))) : ∀ (w : List Sheet),
    ∃ out, processSupplemental exams (fun _ => true) (fun _ => true) A bs w = some out := by
  induction bs with
  | nil => exact fun w => ⟨w, rfl⟩
  | cons b bs ih =>
    intro w
    obtain ⟨tops, ht⟩ := suppBatchSheets_allOk exams b
    obtain ⟨out, hout⟩ := ih (w ++ [Sheet.grid tops, Sheet.blank].takeWhile A)
    refine ⟨out, ?_⟩
    simp only [processSupplemental, ht]
    exact hout

theorem reformat_core_allOk_isSome (exams : List (Nat × List Nat)) (A : Sheet → Bool) :
    ∃ out, reformat_core exams (fun _ => true) (fun _ => true) A = some out := by
  obtain ⟨w, hw⟩ := processPrimary_allOk_isSome exams A (chunkBatches (sortedIds exams)) 1 []
  obtain ⟨out, hout⟩ :=
    processSupplemental_allOk_isSome exams A (chunkBatches (thirdPageExams exams)) w
  refine ⟨out, ?_⟩
  simp only [reformat_core, hw]
  exact hout

/-- "Page p is among the first three pages of some group": the only pages
the output can ever display. -/
def goodImage (exams : List (Nat × List Nat)) (p : Nat) : Prop :=
  ∃ n l, lookupGroup exams n = some l ∧ p ∈ l.take 3

theorem renderCell_images (exams : List (Nat × List Nat)) (R D : Nat → Bool) (i : Nat)
    (c : Option Nat × Option Nat) (ops : List DrawOp)
    (h : renderCell exams R D i c = some ops) (p : Nat)
    (hp : p ∈ (ops.map opImages).flatten) : c.2 = some p := by
  match c with
  | (some e, some q) =>
    by_cases hR : R q
    · by_cases hD : D q
      · simp only [renderCell, hR, hD, if_true, Option.some.injEq] at h
        rw [← h] at hp
        simp [opImages] at hp
        simp [hp]
      · simp [renderCell, hR, hD] at h
    · simp [renderCell, hR] at h
  | (none, x) =>
    simp only [renderCell, Option.some.injEq] at h
    rw [← h] at hp
    simp at hp
  | (some e, none) =>
    simp only [renderCell, Option.some.injEq] at h
    rw [← h] at hp
    simp at hp

theorem renderCells_images (exams : List (Nat × List Nat)) (R D : Nat → Bool)
    (cells : List (Option Nat × Option Nat)) : ∀ (i : Nat) (ops : List DrawOp),
    renderCells exams R D i cells = some ops → ∀ p : Nat,
    p ∈ (ops.map opImages).flatten → ∃ c ∈ cells, c.2 = some p := by
  induction cells with
  | nil =>
    intro i ops h p hp
    simp only [renderCells, Option.some.injEq] at h
    rw [← h] at hp
    simp at hp
  | cons c cs ih =>
    intro i ops h p hp
    cases hc : renderCell exams R D i c with
    | none => simp [renderCells, hc] at h
    | some ops1 =>
      cases hcs : renderCells exams R D (i + 1) cs with
      | none => simp [renderCells, hc, hcs] at h
      | some more =>
        simp only [renderCells, hc, hcs, Option.some.injEq] at h
        rw [← h, List.map_append, List.flatten_append] at hp
        rcases List.mem_append.mp hp with hp1 | hp2
        · exact ⟨c, List.mem_cons_self c cs, renderCell_images exams R D i c ops1 hc p hp1⟩
        · obtain ⟨c', hc'mem, hc'⟩ := ih (i + 1) more hcs p hp2
          exact ⟨c', List.mem_cons_of_mem c hc'mem, hc'⟩

theorem create_grid_page_images (exams : List (Nat × List Nat)) (R D : Nat → Bool)
    (nums idxs : List (Option Nat)) (t : String) (ops : List DrawOp) (hcFlag : Bool)
    (h : create_grid_page exams R D nums idxs t = some (ops, hcFlag)) (p : Nat)
    (hp : p ∈ (ops.map opImages).flatten) : some p ∈ idxs := by
  cases hr : renderCells exams R D 0 (nums.zip idxs) with
  | none => simp [create_grid_page, hr] at h
  | some rops =>
    simp only [create_grid_page, hr, Option.some.injEq, Prod.mk.injEq] at h
    rw [← h.1, List.map_append, List.flatten_append] at hp
    rcases List.mem_append.mp hp with hp1 | hp2
    · by_cases ht : t = "" <;> simp [ht, opImages] at hp1
    · obtain ⟨c, hcmem, hc2⟩ := renderCells_images exams R D (nums.zip idxs) 0 rops hr p hp2
      have hsnd : c.2 ∈ idxs := (List.of_mem_zip (by exact hcmem : (c.1, c.2) ∈ nums.zip idxs)).2
      rw [hc2] at hsnd
      exact hsnd

theorem frontIndex_take3 (exams : List (Nat × List Nat)) (e : Option Nat) (p : Nat)
    (h : frontIndex exams e = some p) : goodImage exams p := by
  match e with
  | none => simp [frontIndex] at h
  | some n =>
    by_cases h0 : n ≠ 0
    · cases hl : lookupGroup exams n with
      | none => simp [frontIndex, h0, hl] at h
      | some l =>
        match l with
        | [] => simp [frontIndex, h0, hl] at h
        | p0 :: rest =>
          simp only [frontIndex, hl] at h
          rw [if_pos h0] at h
          exact ⟨n, p0 :: rest, hl, by rw [← Option.some.inj h]; simp⟩
    · simp [frontIndex, h0] at h

theorem backIndex_take3 (exams : List (Nat × List Nat)) (e : Option Nat) (p : Nat)
    (h : backIndex exams e = some p) : goodImage exams p := by
  match e with
  | none => simp [backIndex] at h
  | some n =>
    by_cases h0 : n ≠ 0
    · cases hl : lookupGroup exams n with
      | none => simp [backIndex, h0, hl] at h
      | some l =>
        match l with
        | [] => simp [backIndex, h0, hl] at h
        | [p0] => simp [backIndex, h0, hl] at h
        | p0 :: p1 :: rest =>
          simp only [backIndex, hl] at h
          rw [if_pos h0] at h
          exact ⟨n, p0 :: p1 :: rest, hl, by rw [← Option.some.inj h]; simp⟩
    · simp [backIndex, h0] at h

theorem thirdIndex_take3 (exams : List (Nat × List Nat)) (e : Option Nat) (p : Nat)
    (h : thirdIndex exams e = some p) : goodImage exams p := by
  match e with
  | none => simp [thirdIndex] at h
  | some n =>
    by_cases h0 : n ≠ 0
    · cases hl : lookupGroup exams n with
      | none => simp [thirdIndex, h0, hl] at h
      | some l =>
        match l with
        | [] => simp [thirdIndex, h0, hl] at h
        | [p0] => simp [thirdIndex, h0, hl] at h
        | [p0, p1] => simp [thirdIndex, h0, hl] at h
        | p0 :: p1 :: p2 :: rest =>
          simp only [thirdIndex, hl] at h
          rw [if_pos h0] at h
          exact ⟨n, p0 :: p1 :: p2 :: rest, hl, by rw [← Option.some.inj h]; simp⟩
    · simp [thirdIndex, h0] at h

theorem outputImages_append (a b : List Sheet) :
    outputImages (a ++ b) = outputImages a ++ outputImages b := by
  simp [outputImages]

theorem mem_outputImages (p : Nat) (l : List Sheet) :
    p ∈ outputImages l ↔ ∃ s ∈ l, p ∈ sheetImages s := by
  simp [outputImages, List.mem_flatten]

theorem primaryBatchSheets_images (exams : List (Nat × List Nat)) (R D : Nat → Bool)
    (batch : List (Option Nat)) (k : Nat) (sheets : List Sheet)
    (h : primaryBatchSheets exams R D batch k = some sheets)
    (s : Sheet) (hs : s ∈ sheets) (p : Nat) (hp : p ∈ sheetImages s) :
    goodImage exams p := by
  cases hf : create_grid_page exams R D batch (batch.map (frontIndex exams))
      ("Batch " ++ toString k ++ " - First Pages") with
  | none => simp [primaryBatchSheets, hf] at h
  | some fr =>
    obtain ⟨fops, fhc⟩ := fr
    cases hb : create_grid_page exams R D (back_order batch)
        ((back_order batch).map (backIndex exams))
        ("Batch " ++ toString k ++ " - Second Pages") with
    | none => simp [primaryBatchSheets, hf, hb] at h
    | some br =>
      obtain ⟨bops, bhc⟩ := br
      simp only [primaryBatchSheets, hf, hb, Option.some.injEq] at h
      rw [← h] at hs
      rw [List.mem_cons] at hs
      rcases hs with hs | hs
      · subst hs
        simp only [sheetImages] at hp
        have himg := create_grid_page_images exams R D batch (batch.map (frontIndex exams))
          ("Batch " ++ toString k ++ " - First Pages") fops fhc hf p hp
        obtain ⟨e, hemem, he⟩ := List.mem_map.mp himg
        exact frontIndex_take3 exams e p he
      · by_cases hcb : bhc = true
        · simp only [hcb, if_true, List.mem_singleton] at hs
          subst hs
          simp only [sheetImages] at hp
          have himg := create_grid_page_images exams R D (back_order batch)
            ((back_order batch).map (backIndex exams))
            ("Batch " ++ toString k ++ " - Second Pages") bops bhc hb p hp
          obtain ⟨e, hemem, he⟩ := List.mem_map.mp himg
          exact backIndex_take3 exams e p he
        · rw [Bool.not_eq_true] at hcb
          simp only [hcb, Bool.false_eq_true, if_false, List.mem_singleton] at hs
          subst hs
          simp [sheetImages] at hp

theorem suppBatchSheets_images (exams : List (Nat × List Nat)) (R D : Nat → Bool)
    (batch : List (Option Nat)) (sheets : List Sheet)
    (h : suppBatchSheets exams R D batch = some sheets)
    (s : Sheet) (hs : s ∈ sheets) (p : Nat) (hp : p ∈ sheetImages s) :
    goodImage exams p := by
  cases ht : create_grid_page exams R D batch (batch.map (thirdIndex exams))
      ("Third Pages - Exams " ++ pyIntListRepr (batch.filterMap id)) with
  | none => simp [suppBatchSheets, ht] at h
  | some tr =>
    obtain ⟨tops, thc⟩ := tr
    simp only [suppBatchSheets, ht, Option.some.injEq] at h
    rw [← h] at hs
    rw [List.mem_cons, List.mem_singleton] at hs
    rcases hs with hs | hs
    · subst hs
      simp only [sheetImages] at hp
      have himg := create_grid_page_images exams R D batch (batch.map (thirdIndex exams))
        ("Third Pages - Exams " ++ pyIntListRepr (batch.filterMap id)) tops thc ht p hp
      obtain ⟨e, hemem, he⟩ := List.mem_map.mp himg
      exact thirdIndex_take3 exams e p he
    · subst hs
      simp [sheetImages] at hp

theorem processPrimary_images (exams : List (Nat × List Nat)) (R D : Nat → Bool)
    (A : Sheet → Bool) (bs : List (List (Option Nat))) :
    ∀ (k : Nat) (w out : List Sheet),
    processPrimary exams R D A bs k w = some out →
    (∀ p ∈ outputImages w, goodImage exams p) →
    ∀ p ∈ outputImages out, goodImage exams p := by
  induction bs with
  | nil =>
    intro k w out h hw
    simp only [processPrimary, Option.some.injEq] at h
    exact h ▸ hw
  | cons b bs ih =>
    intro k w out h hw
    cases hb : primaryBatchSheets exams R D b k with
    | none => simp [processPrimary, hb] at h
    | some sheets =>
      simp only [processPrimary, hb] at h
      refine ih (k + 1) _ out h ?_
      intro p hp
      rw [outputImages_append] at hp
      rcases List.mem_append.mp hp with hp | hp
      · exact hw p hp
      · rw [mem_outputImages] at hp
        obtain ⟨s, hsmem, hsp⟩ := hp
        have hs' : s ∈ sheets := (List.takeWhile_sublist A).subset hsmem
        exact primaryBatchSheets_images exams R D b k sheets hb s hs' p hsp

theorem processSupplemental_images (exams : List (Nat × List Nat)) (R D : Nat → Bool)
    (A : Sheet → Bool) (bs : List (List (Option Nat))) :
    ∀ (w out : List Sheet),
    processSupplemental exams R D A bs w = some out →
    (∀ p ∈ outputImages w, goodImage exams p) →
    ∀ p ∈ outputImages out, goodImage exams p := by
  induction bs with
  | nil =>
    intro w out h hw
    simp only [processSupplemental, Option.some.injEq] at h
    exact h ▸ hw
  | cons b bs ih =>
    intro w out h hw
    cases hb : suppBatchSheets exams R D b with
    | none => simp [processSupplemental, hb] at h
    | some sheets =>
      simp only [processSupplemental, hb] at h
      refine ih _ out h ?_
      intro p hp
      rw [outputImages_append] at hp
      rcases List.mem_append.mp hp with hp | hp
      · exact hw p hp
      · rw [mem_outputImages] at hp
        obtain ⟨s, hsmem, hsp⟩ := hp
        have hs' : s ∈ sheets := (List.takeWhile_sublist A).subset hsmem
        exact suppBatchSheets_images exams R D b sheets hb s hs' p hsp

theorem reformat_core_images (exams : List (Nat × List Nat)) (R D : Nat → Bool)
    (A : Sheet → Bool) (out : List Sheet)
    (h : reformat_core exams R D A = some out) :
    ∀ p ∈ outputImages out, goodImage exams p := by
  cases hp : processPrimary exams R D A (chunkBatches (sortedIds exams)) 1 [] with
  | none => simp [reformat_core, hp] at h
  | some w =>
    simp only [reformat_core, hp] at h
    refine processSupplemental_images exams R D A (chunkBatches (thirdPageExams exams))
      w out h ?_
    refine processPrimary_images exams R D A (chunkBatches (sortedIds exams)) 1 [] w hp ?_
    intro p hp0
    simp [outputImages] at hp0

/-! ## Claim theorems -/

/-- C1: classification processes pages in source order as a fold.  On a
marker page the matched id's group is started (or resumed: its existing
page list is extended, never replaced), the page index is appended to it,
and the id becomes active; other groups are untouched.  On a non-marker
page the page index is appended to the active group when one exists; when
no group has ever been active the state is unchanged, and in particular a
document with no marker at all classifies to an empty group index (the
page belongs to no group). -/
theorem classification_fold (s : ParseState) (pageNum : Nat) (text : String) :
    (∀ n, findMarker text = some n →
      (parseStep s pageNum text).currentExam = some n ∧
      lookupGroup (parseStep s pageNum text).exams n
        = some ((lookupGroup s.exams n).getD [] ++ [pageNum]) ∧
      ∀ m, m ≠ n → lookupGroup (parseStep s pageNum text).exams m = lookupGroup s.exams m) ∧
    (findMarker text = none → ∀ g, s.currentExam = some g →
      (parseStep s pageNum text).currentExam = some g ∧
      lookupGroup (parseStep s pageNum text).exams g
        = (lookupGroup s.exams g).map (fun v => v ++ [pageNum]) ∧
      ∀ m, m ≠ g → lookupGroup (parseStep s pageNum text).exams m = lookupGroup s.exams m) ∧
    (findMarker text = none → s.currentExam = none → parseStep s pageNum text = s) ∧
    (∀ texts : List String, (∀ t ∈ texts, findMarker t = none) → parse_pdf texts = []) := by
  refine ⟨?_, ?_, ?_, ?_⟩
  · intro n hn
    simp only [parseStep, hn]
    refine ⟨trivial, ?_, ?_⟩
    · rw [lookupGroup_appendPage_self, lookupGroup_exams1]
      rfl
    · intro m hm
      rw [lookupGroup_appendPage_ne _ _ _ _ hm]
      cases h : lookupGroup s.exams n with
      | none => simp [h, lookupGroup_concat_ne _ _ _ _ hm]
      | some v => simp [h]
  · intro hn g hg
    simp only [parseStep, hn, hg]
    exact ⟨trivial, lookupGroup_appendPage_self _ _ _,
      fun m hm => lookupGroup_appendPage_ne _ _ _ _ hm⟩
  · intro hn hc
    simp [parseStep, hn, hc]
  · intro texts h
    have : parseRun texts = ⟨[], none⟩ := by
      unfold parseRun
      rw [List.enum]
      exact parseRun_all_none texts 0 h
    simp [parse_pdf, this]

/-- Witness for C1: resuming group 5 on page 3 extends its page list. -/
theorem classification_fold_witness :
    lookupGroup (parseStep ⟨[(5, [0])], some 5⟩ 3 "TEZA 5").exams 5 = some [0, 3] :=
  (((classification_fold ⟨[(5, [0])], some 5⟩ 3 "TEZA 5").1 5 (by decide)).2.1).trans
    (by decide)

/-- C2: for every list of group ids (in particular every sorted one) and
capacity 6, primary batch planning produces `ceil(len / 6)` batches, every
batch has exactly six slots (the last window padded with empty slots), and
concatenating the non-empty slots of all batches in order reproduces the
id list exactly. -/
theorem primary_batch_planning (ids : List Nat) :
    (chunkBatches ids).length = (ids.length + 5) / 6 ∧
    (∀ b ∈ chunkBatches ids, b.length = 6) ∧
    ((chunkBatches ids).map (fun b => b.filterMap id)).flatten = ids :=
  ⟨chunkBatches_length ids, chunkBatches_batch_length ids, chunkBatches_flatten ids⟩

/-- Witness for C2 at the concrete sorted id list `[1,2,3,4,5,6,7]`. -/
theorem primary_batch_planning_witness :
    (chunkBatches [1, 2, 3, 4, 5, 6, 7]).length = 2 ∧
    ([some 7, none, none, none, none, none] : List (Option Nat)).length = 6 ∧
    ((chunkBatches [1, 2, 3, 4, 5, 6, 7]).map (fun b => b.filterMap id)).flatten
      = [1, 2, 3, 4, 5, 6, 7] :=
  ⟨(primary_batch_planning [1, 2, 3, 4, 5, 6, 7]).1.trans (by decide),
   (primary_batch_planning [1, 2, 3, 4, 5, 6, 7]).2.1
     [some 7, none, none, none, none, none] (by decide),
   (primary_batch_planning [1, 2, 3, 4, 5, 6, 7]).2.2⟩

/-- C3: the back-side reordering of a 6-slot batch sends slot order
`[0,1,2,3,4,5]` to `[2,1,0,5,4,3]` (each row of three reversed in place,
row order unchanged), and it is self-inverse: applying it twice to any
6-slot batch returns the original slot order. -/
theorem back_order_mirror_involutive (α : Type) (b0 b1 b2 b3 b4 b5 : α) :
    back_order [b0, b1, b2, b3, b4, b5] = [b2, b1, b0, b5, b4, b3] ∧
    back_order (back_order [b0, b1, b2, b3, b4, b5]) = [b0, b1, b2, b3, b4, b5] ∧
    back_order [0, 1, 2, 3, 4, 5] = ([2, 1, 0, 5, 4, 3] : List Nat) :=
  ⟨rfl, rfl, rfl⟩

/-- C9: the marker pattern matches the token TEZA case-insensitively,
followed by zero or more whitespace characters and one or more digits,
anywhere in a page's text, yielding the digits interpreted as an integer
group id; in particular both page texts "teza  12" and "TEZA12" classify
the page as a marker page of group 12. -/
theorem marker_pattern_matches (c1 c2 c3 c4 : Char) (ws ds rest : List Char)
    (s : String) (i : Nat) :
    findMarker "teza  12" = some 12 ∧
    findMarker "TEZA12" = some 12 ∧
    (c1.toLower = 't' → c2.toLower = 'e' → c3.toLower = 'z' → c4.toLower = 'a' →
      (∀ c ∈ ws, isWs c = true) → ds ≠ [] → (∀ c ∈ ds, c.isDigit = true) →
      (∀ c, rest.head? = some c → c.isDigit = false) →
      matchTezaAt (c1 :: c2 :: c3 :: c4 :: (ws ++ (ds ++ rest))) = some (digitsVal ds)) ∧
    ((matchTezaAt (s.data.drop i)).isSome = true → (findMarker s).isSome = true) := by
  refine ⟨by decide, by decide, ?_, ?_⟩
  · intro h1 h2 h3 h4 hws hne hd hr
    exact matchTezaAt_match c1 c2 c3 c4 ws ds rest h1 h2 h3 h4 hws hne hd hr
  · intro h
    exact findMarkerAux_isSome s.data i h

/-- Witness for C9: a mixed-case marker with whitespace and a trailing
non-digit, and a marker found mid-text. -/
theorem marker_pattern_matches_witness :
    matchTezaAt ('T' :: 'e' :: 'Z' :: 'a' :: ([' '] ++ (['4', '2'] ++ ['x']))) = some 42 ∧
    (findMarker "zzTEZA 7").isSome = true := by
  constructor
  · exact ((marker_pattern_matches 'T' 'e' 'Z' 'a' [' '] ['4', '2'] ['x'] "" 0).2.2.1
      (by decide) (by decide) (by decide) (by decide) (by decide) (by decide) (by decide)
      (by intro c hc; have hcx := Option.some.inj hc; subst hcx; decide)).trans (by decide)
  · exact (marker_pattern_matches 'T' 'e' 'Z' 'a' [] [] [] "zzTEZA 7" 2).2.2.2 (by decide)

/-- C5 counterexample: parsing markers 1, 2, 1 builds group 1 with the
non-contiguous page list [0, 2]; the rendered cell showing its second page
(source index 2, 1-based rank 2) is labelled "E1-P3", not "E1-P2" as the
claim requires. -/
theorem cell_label_rank_counterexample :
    parse_pdf ["TEZA 1", "TEZA 2", "TEZA 1"] = [(1, [0, 2]), (2, [1])] ∧
    renderCell [(1, [0, 2]), (2, [1])] (fun _ => true) (fun _ => true) 2 (some 1, some 2)
      = some [DrawOp.rect 2, DrawOp.label 2 "E1-P3", DrawOp.image 2 2] ∧
    rankInGroup [0, 2] 2 = 2 ∧
    labelText [(1, [0, 2]), (2, [1])] 1 2 = "E1-P3" ∧
    specLabelText [(1, [0, 2]), (2, [1])] 1 2 = "E1-P2" ∧
    "E1-P3" ≠ "E1-P2" :=
  ⟨by decide, by decide, by decide, by decide, by decide, by decide⟩

/-- C5 amended: the label of a non-empty cell is "E{groupId}-P{k}" where
k − 1 is the offset of the displayed page's source index from the group's
first page index; when the group's page list is contiguous (an arithmetic
run `List.range' a k`), k is exactly the 1-based rank of the page within
the group, matching the spec's label. -/
theorem cell_label_offset (exams : List (Nat × List Nat)) (g a k i slot : Nat)
    (rasterOk drawOk : Nat → Bool)
    (hg : lookupGroup exams g = some (List.range' a k)) (hi : i < k)
    (hro : rasterOk (a + i) = true) (hdo : drawOk (a + i) = true) :
    renderCell exams rasterOk drawOk slot (some g, some (a + i))
      = some [DrawOp.rect slot, DrawOp.label slot (labelText exams g (a + i)),
              DrawOp.image slot (a + i)] ∧
    labelText exams g (a + i) = "E" ++ toString g ++ "-P" ++ toString (i + 1) ∧
    labelText exams g (a + i) = specLabelText exams g (a + i) := by
  have hlabel : labelText exams g (a + i) = "E" ++ toString g ++ "-P" ++ toString (i + 1) := by
    unfold labelText
    rw [hg]
    simp only [Option.getD_some]
    rw [headD_range' a k (by omega)]
    congr 1
    have hcast : ((a + i : Nat) : Int) - ((a : Nat) : Int) + 1 = ((i + 1 : Nat) : Int) := by
      push_cast
      omega
    rw [hcast]
    rfl
  have hspec : specLabelText exams g (a + i) = "E" ++ toString g ++ "-P" ++ toString (i + 1) := by
    unfold specLabelText rankInGroup
    rw [hg]
    simp only [Option.getD_some]
    rw [indexOf_range' a k i hi]
  refine ⟨?_, hlabel, hlabel.trans hspec.symm⟩
  simp [renderCell, hro, hdo]

/-- Witness for C5's amended theorem: the contiguous group 4 with pages
[10, 11, 12]; its third page is labelled "E4-P3". -/
theorem cell_label_offset_witness :
    labelText [(4, [10, 11, 12])] 4 12 = "E4-P3" := by
  have h := (cell_label_offset [(4, [10, 11, 12])] 4 10 3 2 0 (fun _ => true) (fun _ => true)
    (by decide) (by decide) rfl rfl).2.1
  exact h.trans (by decide)

/-- C10: a marker "TEZA 0" creates group 0 and assigns pages to it, but
because slot resolution tests the group id for truthiness rather than for
presence, every front, back, and supplemental cell of group 0 resolves to
empty: none of group 0's pages ever appears in the output (the output
contains no image operation at all), and a batch containing only group 0
contributes no rank-1 content to its back sheet (`has_content` is false). -/
theorem group_zero_truthiness :
    parse_pdf ["TEZA 0", "second page", "third page"] = [(0, [0, 1, 2])] ∧
    frontIndex [(0, [0, 1, 2])] (some 0) = none ∧
    backIndex [(0, [0, 1, 2])] (some 0) = none ∧
    thirdIndex [(0, [0, 1, 2])] (some 0) = none ∧
    reformat_core [(0, [0, 1, 2])] (fun _ => true) (fun _ => true) (fun _ => true)
      = some [Sheet.grid [DrawOp.title "Batch 1 - First Pages"], Sheet.blank,
              Sheet.grid [DrawOp.title "Third Pages - Exams [0]"], Sheet.blank] ∧
    outputImages [Sheet.grid [DrawOp.title "Batch 1 - First Pages"], Sheet.blank,
              Sheet.grid [DrawOp.title "Third Pages - Exams [0]"], Sheet.blank] = [] ∧
    (create_grid_page [(0, [0, 1, 2])] (fun _ => true) (fun _ => true)
        (back_order [some 0, none, none, none, none, none])
        ((back_order [some 0, none, none, none, none, none]).map (backIndex [(0, [0, 1, 2])]))
        "Batch 1 - Second Pages").map Prod.snd = some false :=
  ⟨by decide, by decide, by decide, by decide, by decide, by decide, by decide⟩

/-- C4: rendering the back side of a primary batch returns
`has_content = true` iff at least one resolved cell is non-empty, i.e. (for
batches whose slots hold no id 0) iff some group in the batch has a page at
rank 1; assembly emits the front sheet always, followed by the rendered
back sheet when `has_content` is true and by a single blank sheet
otherwise, so each batch contributes a front/back pair. -/
theorem back_sheet_content_pairing (exams : List (Nat × List Nat))
    (batch : List (Option Nat)) (k : Nat)
    (hpos : ∀ n, (some n) ∈ batch → n ≠ 0) :
    ∃ fops bops hc,
      create_grid_page exams (fun _ => true) (fun _ => true) (back_order batch)
        ((back_order batch).map (backIndex exams))
        ("Batch " ++ toString k ++ " - Second Pages") = some (bops, hc) ∧
      (hc = true ↔ ∃ n l, (some n) ∈ batch ∧ lookupGroup exams n = some l ∧ 2 ≤ l.length) ∧
      primaryBatchSheets exams (fun _ => true) (fun _ => true) batch k
        = some (Sheet.grid fops :: (if hc then [Sheet.grid bops] else [Sheet.blank])) := by
  obtain ⟨fops, hf⟩ := create_grid_page_allOk exams batch (batch.map (frontIndex exams))
    ("Batch " ++ toString k ++ " - First Pages")
  obtain ⟨bops, hb⟩ := create_grid_page_allOk exams (back_order batch)
    ((back_order batch).map (backIndex exams)) ("Batch " ++ toString k ++ " - Second Pages")
  refine ⟨fops, bops, _, hb, ?_, ?_⟩
  · rw [any_cellFilled_zip_map (backIndex exams) rfl (back_order batch)]
    constructor
    · rintro ⟨n, hmem, hsome⟩
      obtain ⟨-, l, hl, hlen⟩ := (backIndex_isSome_iff exams n).mp hsome
      exact ⟨n, l, (mem_back_order batch (some n)).mp hmem, hl, hlen⟩
    · rintro ⟨n, l, hmem, hl, hlen⟩
      refine ⟨n, (mem_back_order batch (some n)).mpr hmem, ?_⟩
      exact (backIndex_isSome_iff exams n).mpr ⟨hpos n hmem, l, hl, hlen⟩
  · simp only [primaryBatchSheets, hf, hb]

/-- Witness for C4: a batch with groups 1 (two pages) and 2 (one page); the
back sheet has content, so the batch contributes the pair front/back. -/
theorem back_sheet_content_pairing_witness :
    ∃ fops bops,
      primaryBatchSheets [(1, [0, 1]), (2, [2])] (fun _ => true) (fun _ => true)
        [some 1, some 2, none, none, none, none] 1
        = some [Sheet.grid fops, Sheet.grid bops] := by
  obtain ⟨fops, bops, hc, hb, hiff, hps⟩ := back_sheet_content_pairing [(1, [0, 1]), (2, [2])]
    [some 1, some 2, none, none, none, none] 1
    (by intro n hn; simp at hn; rcases hn with h | h <;> omega)
  have hctrue : hc = true := hiff.mpr ⟨1, [0, 1], by decide, by decide, by decide⟩
  subst hctrue
  simp only [if_true] at hps
  exact ⟨fops, bops, hps⟩

/-- C7 counterexample: with rasterization failing on source page 0 (shown
in the first cell), rendering the sheet aborts entirely — no sheet at all
is produced — instead of skipping that cell's image, still emitting its
border and label, and rendering the remaining cells. -/
theorem cell_failure_recovery_counterexample :
    create_grid_page [(1, [0]), (2, [1])] (fun q => q != 0) (fun _ => true)
      [some 1, some 2, none, none, none, none]
      [some 0, some 1, none, none, none, none] "t" = none :=
  by decide

/-- C7 amended: a cell whose rasterization or image drawing fails is not
recovered locally: the exception propagates out of `create_grid_page`
(whose `try` block has only a `finally`), so the whole sheet rendering
aborts whenever any non-empty cell fails, and in the pipeline the run
aborts with no output, as in the concrete second conjunct. -/
theorem cell_failure_aborts_sheet (exams : List (Nat × List Nat)) (R D : Nat → Bool)
    (nums idxs : List (Option Nat)) (t : String) (e p : Nat)
    (hmem : (some e, some p) ∈ nums.zip idxs) (h : R p = false ∨ D p = false) :
    create_grid_page exams R D nums idxs t = none ∧
    reformat_core [(1, [0]), (2, [1])] (fun q => q != 0) (fun _ => true)
      (fun _ => true) = none :=
  ⟨create_grid_page_fail exams R D nums idxs t e p hmem h, by decide⟩

/-- Witness for C7's amended theorem: image drawing fails on page 7. -/
theorem cell_failure_aborts_sheet_witness :
    create_grid_page [(3, [7])] (fun _ => true) (fun q => q != 7)
      [some 3] [some 7] "x" = none :=
  (cell_failure_aborts_sheet [(3, [7])] (fun _ => true) (fun q => q != 7)
    [some 3] [some 7] "x" 3 7 (by decide) (Or.inr (by decide))).1

/-- C8 counterexample: with every append to the output writer failing, the
run does not abort: `reformat_core` still completes and the output file is
written (here with zero pages), although the batch's sheets existed and
their appends were attempted and failed. -/
theorem append_failure_abort_counterexample :
    reformat_core [(1, [0])] (fun _ => true) (fun _ => true) (fun _ => false) = some [] ∧
    (primaryBatchSheets [(1, [0])] (fun _ => true) (fun _ => true)
        [some 1, none, none, none, none, none] 1).isSome = true :=
  ⟨by decide, by decide⟩

/-- C8 amended: an append failure is caught by the per-batch
`try`/`except`: the remaining appends of that batch pair are skipped (the
writer keeps exactly the prefix of the batch's sheets that appended
successfully), the run continues with the subsequent batches, and — as long
as rendering itself succeeds — the run always completes and writes an
output document, possibly a partial one.  The third conjunct shows a run
whose first batch's appends all fail still emitting the second batch's
front/blank pair. -/
theorem append_failure_caught (exams : List (Nat × List Nat))
    (R D : Nat → Bool) (A : Sheet → Bool) (b : List (Option Nat))
    (bs : List (List (Option Nat))) (k : Nat) (w : List Sheet) (sheets : List Sheet)
    (hrender : primaryBatchSheets exams R D b k = some sheets) :
    processPrimary exams R D A (b :: bs) k w
      = processPrimary exams R D A bs (k + 1) (w ++ sheets.takeWhile A) ∧
    (∃ out, reformat_core exams (fun _ => true) (fun _ => true) A = some out) ∧
    reformat_core [(1, [0]), (2, [1]), (3, [2]), (4, [3]), (5, [4]), (6, [5]), (7, [6])]
      (fun _ => true) (fun _ => true)
      (fun s => match s with
        | Sheet.grid ops => !(ops.contains (DrawOp.title "Batch 1 - First Pages"))
        | Sheet.blank => true)
      = some [Sheet.grid [DrawOp.title "Batch 2 - First Pages", DrawOp.rect 0,
          DrawOp.label 0 "E7-P1", DrawOp.image 0 6], Sheet.blank] := by
  refine ⟨?_, reformat_core_allOk_isSome exams A, by decide⟩
  simp only [processPrimary, hrender]

/-- C6: supplemental planning filters the sorted ids to exactly the groups
with three or more pages, preserving ascending order; chunks them into
6-slot batches padded with empty slots (zero batches when no group has 3+
pages); each supplemental batch contributes to the output its rank-2 sheet
(each cell with a nonzero id resolving to that group's third page, slots in
direct order) followed unconditionally by a blank sheet; and pages at rank
3 and beyond of any group never appear anywhere in the output. -/
theorem supplemental_planning (exams : List (Nat × List Nat)) :
    List.Sorted (fun a b => a ≤ b) (thirdPageExams exams) ∧
    (∀ n, n ∈ thirdPageExams exams
      ↔ n ∈ sortedIds exams ∧ 3 ≤ ((lookupGroup exams n).getD []).length) ∧
    (∀ b ∈ chunkBatches (thirdPageExams exams), b.length = 6) ∧
    (thirdPageExams exams = [] →
      ∀ (R D : Nat → Bool) (A : Sheet → Bool) (w : List Sheet),
      processSupplemental exams R D A (chunkBatches (thirdPageExams exams)) w = some w) ∧
    (∀ (batch : List (Option Nat)) (bs : List (List (Option Nat))) (w : List Sheet),
      ∃ tops, suppBatchSheets exams (fun _ => true) (fun _ => true) batch
          = some [Sheet.grid tops, Sheet.blank] ∧
        processSupplemental exams (fun _ => true) (fun _ => true) (fun _ => true)
          (batch :: bs) w
        = processSupplemental exams (fun _ => true) (fun _ => true) (fun _ => true)
          bs (w ++ [Sheet.grid tops, Sheet.blank])) ∧
    (∀ (n p0 p1 p2 : Nat) (rest : List Nat), n ≠ 0 →
      lookupGroup exams n = some (p0 :: p1 :: p2 :: rest) →
      thirdIndex exams (some n) = some p2) ∧
    (∀ (R D : Nat → Bool) (A : Sheet → Bool) (out : List Sheet),
      reformat_core exams R D A = some out →
      ∀ p ∈ outputImages out, ∃ n l, lookupGroup exams n = some l ∧ p ∈ l.take 3) := by
  refine ⟨?_, ?_, chunkBatches_batch_length _, ?_, ?_, ?_, ?_⟩
  · exact List.Pairwise.filter _ (List.sorted_insertionSort _ _)
  · intro n
    unfold thirdPageExams
    rw [List.mem_filter]
    simp only [decide_eq_true_eq]
  · intro h R D A w
    rw [h]
    rfl
  · intro batch bs w
    obtain ⟨tops, ht⟩ := suppBatchSheets_allOk exams batch
    refine ⟨tops, ht, ?_⟩
    simp only [processSupplemental, ht]
    simp
  · intro n p0 p1 p2 rest h0 hl
    simp only [thirdIndex, hl]
    rw [if_pos h0]
  · intro R D A out h p hp
    exact reformat_core_images exams R D A out h p hp

/-- Witness for C6: group 9 has four pages (its rank-4 page, source index
5, is dropped from the output) and group 1 has one page. -/
theorem supplemental_planning_witness :
    (9 ∈ thirdPageExams [(9, [0, 1, 2, 5]), (1, [3])]
      ↔ 9 ∈ sortedIds [(9, [0, 1, 2, 5]), (1, [3])]
        ∧ 3 ≤ ((lookupGroup [(9, [0, 1, 2, 5]), (1, [3])] 9).getD []).length) ∧
    thirdIndex [(9, [0, 1, 2, 5]), (1, [3])] (some 9) = some 2 := by
  refine ⟨(supplemental_planning [(9, [0, 1, 2, 5]), (1, [3])]).2.1 9, ?_⟩
  exact (supplemental_planning [(9, [0, 1, 2, 5]), (1, [3])]).2.2.2.2.2.1 9 0 1 2 [5]
    (by decide) (by decide)

/-- Witness for C8's amended theorem: one single-page group, every append
failing; the run completes with an empty output document. -/
theorem append_failure_caught_witness :
    processPrimary [(1, [0])] (fun _ => true) (fun _ => true) (fun _ => false)
      [[some 1, none, none, none, none, none]] 1 [] = some [] := by
  have h := (append_failure_caught [(1, [0])] (fun _ => true) (fun _ => true) (fun _ => false)
    [some 1, none, none, none, none, none] [] 1 []
    [Sheet.grid [DrawOp.title "Batch 1 - First Pages", DrawOp.rect 0,
      DrawOp.label 0 "E1-P1", DrawOp.image 0 0], Sheet.blank] (by decide)).1
  exact h.trans (by decide)

end PdfFormatter
